import Mathlib

/-!
Shallow embedding of the bca-sync-ynab transaction pipeline.

Times are local-calendar timestamps in a fixed zone (the program pins
`time.Local` to WIB, a zone with no DST), so a timestamp is represented by a
calendar-day number together with the second within that day.  Day 0 is a
Thursday (the Unix epoch day), so `day % 7` determines the weekday.
`decimal.Decimal` values are represented by rationals; `IntPart` truncates
toward zero.
-/

/-- A local timestamp: calendar-day number and second within the day. -/
structure GoTime where
  day : ℤ
  sec : ℕ
  deriving DecidableEq, Repr

inductive Weekday where
  | monday | tuesday | wednesday | thursday | friday | saturday | sunday
  deriving DecidableEq, Repr

/-- Weekday from a day-residue mod 7; day 0 (residue 0) is a Thursday. -/
def weekdayOfNat : ℕ → Weekday
  | 0 => .thursday
  | 1 => .friday
  | 2 => .saturday
  | 3 => .sunday
  | 4 => .monday
  | 5 => .tuesday
  | _ => .wednesday

def GoTime.weekday (t : GoTime) : Weekday :=
  weekdayOfNat (t.day % 7).toNat

/-- `now.Hour()` in Go: the hour within the day. -/
def GoTime.hour (t : GoTime) : ℕ :=
  t.sec / 3600

/-- `AddDate(0, 0, n)` in the fixed zone: shift by whole days. -/
def GoTime.addDays (t : GoTime) (n : ℤ) : GoTime :=
  ⟨t.day + n, t.sec⟩

/-- `t.After(u)` in Go: strictly later in the lexicographic (day, sec) order. -/
def GoTime.after (a b : GoTime) : Bool :=
  decide (b.day < a.day ∨ (a.day = b.day ∧ b.sec < a.sec))

/-- `t` is not later than `u`. -/
def GoTime.le (a b : GoTime) : Prop :=
  a.day < b.day ∨ (a.day = b.day ∧ a.sec ≤ b.sec)

/-- `clearDate` from bcasync.go: predicted clearance date for a pending
transaction observed at `now` (22:00 cutoff, weekend non-processing). -/
def clearDate (now : GoTime) : GoTime :=
  let rounded : GoTime := ⟨now.day, 0⟩
  match now.weekday with
  | .friday => if now.hour < 22 then rounded else rounded.addDays 3
  | .saturday => rounded.addDays 2
  | .sunday => rounded.addDays 1
  | _ => if now.hour < 22 then rounded else rounded.addDays 1

/-- The Clearance Date Resolver as the spec words it: now's calendar date
truncated to midnight, shifted by the cutoff/weekend rules. -/
def clearDateSpec (t : GoTime) : GoTime :=
  let base : GoTime := ⟨t.day, 0⟩
  if t.weekday = .friday ∧ t.hour < 22 then base
  else if t.weekday = .friday then base.addDays 3
  else if t.weekday = .saturday then base.addDays 2
  else if t.weekday = .sunday then base.addDays 1
  else if t.hour < 22 then base else base.addDays 1

/-- `decimal.Decimal.IntPart`: truncation toward zero. -/
def decIntPart (q : ℚ) : ℤ :=
  if 0 ≤ q then ⌊q⌋ else ⌈q⌉

/-- `bca.Entry`: one raw statement line.  A zero `time.Time` (pending
transaction) is `none`. -/
structure Entry where
  date : Option GoTime
  description : String
  type : String
  amount : ℚ
  payee : String
  deriving DecidableEq, Repr

def entryDateKey : Option GoTime → String
  | none => "zero"
  | some t => toString t.day ++ "T" ++ toString t.sec

/-- Abstraction of `structhash.Hash(trx, 1)`: a deterministic fingerprint of
every field of the struct (date, description, type, amount, payee). -/
def structhashEntry (e : Entry) : String :=
  "v1_" ++ entryDateKey e.date ++ "|" ++ e.description ++ "|" ++ e.type ++ "|"
    ++ toString e.amount.num ++ "/" ++ toString e.amount.den ++ "|" ++ e.payee

inductive ClearingStatus where
  | cleared | uncleared | reconciled
  deriving DecidableEq, Repr

/-- `transaction.PayloadTransaction` from the ynab client. -/
structure PayloadTransaction where
  accountID : String
  date : GoTime
  amount : ℤ
  cleared : ClearingStatus
  approved : Bool
  payeeID : Option String
  payeeName : Option String
  categoryID : Option String
  memo : Option String
  flagColor : Option String
  importID : Option String
  deriving DecidableEq, Repr

/-- `toPayloadTransaction` from the mapper: `now` stands for the run time
(`time.Now()`). -/
def toPayloadTransaction (now : GoTime) (trx0 : Entry) (accountID : String) :
    PayloadTransaction :=
  let desc := trx0.description
  let trx1 : Entry := { trx0 with description := "" }
  let trx : Entry :=
    if trx1.date.isNone then { trx1 with date := some (clearDate now) } else trx1
  let t0 : GoTime := match trx.date with
    | some d => d
    | none => clearDate now
  let miliunit : ℤ := decIntPart (trx.amount * 1000)
  let payee := trx.payee
  let memo := desc
  let importid := structhashEntry trx
  let t : GoTime := if t0.after now then now else t0
  let miliunit : ℤ := if trx.type = "DB" then -miliunit else miliunit
  { accountID := accountID
    date := t
    amount := miliunit
    cleared := .cleared
    approved := true
    payeeID := none
    payeeName := some payee
    categoryID := none
    memo := some memo
    flagColor := none
    importID := some importid }

structure Category where
  id : String
  name : String
  deriving DecidableEq, Repr

structure CategoryGroup where
  categories : List Category
  deriving DecidableEq, Repr

/-- The nested loop in `createYNABBalancaAdjustment` that looks up the
category named "Inflows": first match across the groups. -/
def findInflows : List CategoryGroup → Option Category
  | [] => none
  | g :: gs =>
    match g.categories.find? (fun c => c.name = "Inflows") with
    | some c => some c
    | none => findInflows gs

/-- `createYNABBalancaAdjustment`: `bankBalance` is the bank's balance
(`bal.Balance`), `targetBalance` the ynab account's post-import balance in
milliunits (`anew.Balance`), `gs` the budget's category groups, `now` the run
time.  Returns the reconciliation transaction it posts, if any. -/
def createYNABBalancaAdjustment (bankBalance : ℚ) (targetBalance : ℤ)
    (gs : List CategoryGroup) (accountID : String) (now : GoTime) :
    Except String (Option PayloadTransaction) :=
  let delta : ℤ := decIntPart bankBalance * 1000 - targetBalance
  if delta ≠ 0 then
    match findInflows gs with
    | none => .error "couldnt find to be budgeted category"
    | some c =>
      .ok (some
        { accountID := accountID
          date := now
          amount := delta
          cleared := .reconciled
          approved := true
          payeeID := none
          payeeName := some "Automated Balance Adjustment"
          categoryID := some c.id
          memo := none
          flagColor := none
          importID := none })
  else .ok none

/-- `gofirefly.TransactionSplitStore`, the fields `toFireflyTrx` sets.  The
amount is kept as the decimal it stringifies. -/
structure TransactionSplitStore where
  type : String
  date : GoTime
  amount : ℚ
  description : String
  sourceId : Option String
  destinationId : Option String
  sourceName : Option String
  destinationName : Option String
  deriving DecidableEq, Repr

/-- `toFireflyTrx`: the firefly-iii mapper; `now` is `time.Now()`. -/
def toFireflyTrx (now : GoTime) (trx : Entry) (accountID : String) :
    TransactionSplitStore :=
  let date : GoTime := match trx.date with
    | none => now
    | some d => d
  let base : TransactionSplitStore :=
    { type := "", date := date, amount := trx.amount, description := ""
      sourceId := none, destinationId := none
      sourceName := none, destinationName := none }
  let base : TransactionSplitStore :=
    if trx.type = "DB" then
      { base with type := "withdrawal", sourceId := some accountID
                  destinationName := some trx.payee }
    else
      { base with type := "deposit", sourceName := some trx.payee
                  destinationId := some accountID }
  if trx.description ≠ "" then { base with description := trx.description }
  else { base with description := trx.payee }

/-- The `days` clamping at the top of `getBCATransactions` in bcasync.go. -/
def clampDays (d : ℤ) : ℤ :=
  let d := if d > 27 then 27 else d
  if d < 0 then 0 else d

/-- The start of the statement-fetch window: `end.AddDate(0, 0, -days)` with
the clamped `days`, where `now` is the end of the window (`time.Now()`). -/
def fetchWindowStart (d : ℤ) (now : GoTime) : GoTime :=
  now.addDays (-(clampDays d))

/-- Rendering of a timestamp inside the empty-statement message (stands for
Go's `%s` formatting of `time.Time`). -/
def GoTime.render (t : GoTime) : String :=
  "day " ++ toString t.day ++ " sec " ++ toString t.sec

/-- The message built by `getBCATransactions` when the statement is empty. -/
def noTrxMessage (d : ℤ) (now : GoTime) : String :=
  "no bca transactions from " ++ (fetchWindowStart d now).render ++ " to "
    ++ now.render ++ "\n"

/-- `getBCATransactions` (bcasync.go): clamp the window, fetch, and treat an
empty statement as an error.  `fetched` is the banking collaborator's
response for the clamped window. -/
def getBCATransactions (d : ℤ) (now : GoTime) (fetched : List Entry) :
    Except String (List Entry) :=
  if fetched.length = 0 then .error (noTrxMessage d now) else .ok fetched

/-- The fetch-then-submit skeleton of `actionFunc` on the ynab path: the
first component records whether the batch submit (`CreateTransactions`) was
reached, the second the run's outcome with the mapped batch. -/
def runSync (d : ℤ) (now : GoTime) (fetched : List Entry)
    (accountID : String) : Bool × Except String (List PayloadTransaction) :=
  match getBCATransactions d now fetched with
  | .error e => (false, .error e)
  | .ok trxs => (true, .ok (trxs.map (fun trx => toPayloadTransaction now trx accountID)))

/-- Whether an `Except` result is a success. -/
def exceptIsOk {α : Type} : Except String α → Bool
  | .ok _ => true
  | .error _ => false

/-- A Tuesday (day residue 5) at 10:00 local time. -/
def nowW : GoTime := ⟨5, 36000⟩

/-- A Friday (day residue 1) at 22:00 local time. -/
def nowFri : GoTime := ⟨1, 79200⟩

/-- A debit entry with a fractional decimal amount. -/
def eDB : Entry :=
  { date := some ⟨0, 0⟩, description := "x", type := "DB", amount := 7 / 2
    payee := "Shop" }

/-- Two settled entries agreeing on date, amount, type and payee but with
different descriptions. -/
def eA : Entry :=
  { date := some ⟨3, 120⟩, description := "TRSF E-BANKING", type := "CR"
    amount := 50, payee := "ACME" }

def eB : Entry :=
  { date := some ⟨3, 120⟩, description := "", type := "CR", amount := 50
    payee := "ACME" }

/-- A settled credit entry with an empty description. -/
def eEmptyDesc : Entry :=
  { date := some ⟨0, 0⟩, description := "", type := "CR", amount := 1
    payee := "ACME" }

/-- A pending entry (no posted date). -/
def ePendW : Entry :=
  { date := none, description := "d", type := "CR", amount := 1, payee := "P" }

/-- A pending entry observed on a Friday at 22:00. -/
def ePendCex : Entry :=
  { date := none, description := "", type := "CR", amount := 1, payee := "X" }

/-- A category-group list containing the "Inflows" category. -/
def gsW : List CategoryGroup := [⟨[⟨"cat1", "Inflows"⟩]⟩]

lemma weekday_mk (d : ℤ) (s : ℕ) :
    GoTime.weekday ⟨d, s⟩ = weekdayOfNat (d % 7).toNat := rfl

/-- C2: for every timestamp, `clearDate` returns the calendar date truncated
to midnight, shifted by exactly the cutoff rules the spec lists: Friday
before 22:00 same day, Friday from 22:00 on +3, Saturday +2, Sunday +1, any
other weekday same day before 22:00 and +1 from 22:00 on. -/
theorem clearDate_eq_clearDateSpec (t : GoTime) : clearDate t = clearDateSpec t := by
  unfold clearDate clearDateSpec
  cases hw : t.weekday <;> simp [hw]

lemma weekdayOfNat_mk (d : ℤ) (s : ℕ) (m : ℕ) (hm : (d % 7).toNat = m) :
    GoTime.weekday ⟨d, s⟩ = weekdayOfNat m := by
  rw [weekday_mk, hm]

/-- C9: the clearance date is always a midnight timestamp, lies between the
input's calendar date and that date plus 3 days, and never falls on a
Saturday or a Sunday. -/
theorem clearDate_invariants (t : GoTime) :
    (clearDate t).sec = 0 ∧ t.day ≤ (clearDate t).day ∧
    (clearDate t).day ≤ t.day + 3 ∧
    (clearDate t).weekday ≠ .saturday ∧ (clearDate t).weekday ≠ .sunday := by
  obtain ⟨d, s⟩ := t
  have h7 : (d % 7).toNat = 0 ∨ (d % 7).toNat = 1 ∨ (d % 7).toNat = 2 ∨
      (d % 7).toNat = 3 ∨ (d % 7).toNat = 4 ∨ (d % 7).toNat = 5 ∨
      (d % 7).toNat = 6 := by omega
  rcases h7 with h | h | h | h | h | h | h
  · -- Thursday
    have hw := weekdayOfNat_mk d s 0 h
    by_cases hh : GoTime.hour ⟨d, s⟩ < 22
    · have hc : clearDate ⟨d, s⟩ = ⟨d, 0⟩ := by
        simp [clearDate, hw, weekdayOfNat, hh]
      rw [hc]
      exact ⟨rfl, by show d ≤ d; omega, by show d ≤ d + 3; omega,
        by rw [weekdayOfNat_mk d 0 0 h]; decide,
        by rw [weekdayOfNat_mk d 0 0 h]; decide⟩
    · have hc : clearDate ⟨d, s⟩ = ⟨d + 1, 0⟩ := by
        simp [clearDate, hw, weekdayOfNat, hh, GoTime.addDays]
      rw [hc]
      exact ⟨rfl, by show d ≤ d + 1; omega, by show d + 1 ≤ d + 3; omega,
        by rw [weekdayOfNat_mk (d + 1) 0 1 (by omega)]; decide,
        by rw [weekdayOfNat_mk (d + 1) 0 1 (by omega)]; decide⟩
  · -- Friday
    have hw := weekdayOfNat_mk d s 1 h
    by_cases hh : GoTime.hour ⟨d, s⟩ < 22
    · have hc : clearDate ⟨d, s⟩ = ⟨d, 0⟩ := by
        simp [clearDate, hw, weekdayOfNat, hh]
      rw [hc]
      exact ⟨rfl, by show d ≤ d; omega, by show d ≤ d + 3; omega,
        by rw [weekdayOfNat_mk d 0 1 h]; decide,
        by rw [weekdayOfNat_mk d 0 1 h]; decide⟩
    · have hc : clearDate ⟨d, s⟩ = ⟨d + 3, 0⟩ := by
        simp [clearDate, hw, weekdayOfNat, hh, GoTime.addDays]
      rw [hc]
      exact ⟨rfl, by show d ≤ d + 3; omega, by show d + 3 ≤ d + 3; omega,
        by rw [weekdayOfNat_mk (d + 3) 0 4 (by omega)]; decide,
        by rw [weekdayOfNat_mk (d + 3) 0 4 (by omega)]; decide⟩
  · -- Saturday
    have hw := weekdayOfNat_mk d s 2 h
    have hc : clearDate ⟨d, s⟩ = ⟨d + 2, 0⟩ := by
      simp [clearDate, hw, weekdayOfNat, GoTime.addDays]
    rw [hc]
    exact ⟨rfl, by show d ≤ d + 2; omega, by show d + 2 ≤ d + 3; omega,
      by rw [weekdayOfNat_mk (d + 2) 0 4 (by omega)]; decide,
      by rw [weekdayOfNat_mk (d + 2) 0 4 (by omega)]; decide⟩
  · -- Sunday
    have hw := weekdayOfNat_mk d s 3 h
    have hc : clearDate ⟨d, s⟩ = ⟨d + 1, 0⟩ := by
      simp [clearDate, hw, weekdayOfNat, GoTime.addDays]
    rw [hc]
    exact ⟨rfl, by show d ≤ d + 1; omega, by show d + 1 ≤ d + 3; omega,
      by rw [weekdayOfNat_mk (d + 1) 0 4 (by omega)]; decide,
      by rw [weekdayOfNat_mk (d + 1) 0 4 (by omega)]; decide⟩
  · -- Monday
    have hw := weekdayOfNat_mk d s 4 h
    by_cases hh : GoTime.hour ⟨d, s⟩ < 22
    · have hc : clearDate ⟨d, s⟩ = ⟨d, 0⟩ := by
        simp [clearDate, hw, weekdayOfNat, hh]
      rw [hc]
      exact ⟨rfl, by show d ≤ d; omega, by show d ≤ d + 3; omega,
        by rw [weekdayOfNat_mk d 0 4 h]; decide,
        by rw [weekdayOfNat_mk d 0 4 h]; decide⟩
    · have hc : clearDate ⟨d, s⟩ = ⟨d + 1, 0⟩ := by
        simp [clearDate, hw, weekdayOfNat, hh, GoTime.addDays]
      rw [hc]
      exact ⟨rfl, by show d ≤ d + 1; omega, by show d + 1 ≤ d + 3; omega,
        by rw [weekdayOfNat_mk (d + 1) 0 5 (by omega)]; decide,
        by rw [weekdayOfNat_mk (d + 1) 0 5 (by omega)]; decide⟩
  · -- Tuesday
    have hw := weekdayOfNat_mk d s 5 h
    by_cases hh : GoTime.hour ⟨d, s⟩ < 22
    · have hc : clearDate ⟨d, s⟩ = ⟨d, 0⟩ := by
        simp [clearDate, hw, weekdayOfNat, hh]
      rw [hc]
      exact ⟨rfl, by show d ≤ d; omega, by show d ≤ d + 3; omega,
        by rw [weekdayOfNat_mk d 0 5 h]; decide,
        by rw [weekdayOfNat_mk d 0 5 h]; decide⟩
    · have hc : clearDate ⟨d, s⟩ = ⟨d + 1, 0⟩ := by
        simp [clearDate, hw, weekdayOfNat, hh, GoTime.addDays]
      rw [hc]
      exact ⟨rfl, by show d ≤ d + 1; omega, by show d + 1 ≤ d + 3; omega,
        by rw [weekdayOfNat_mk (d + 1) 0 6 (by omega)]; decide,
        by rw [weekdayOfNat_mk (d + 1) 0 6 (by omega)]; decide⟩
  · -- Wednesday
    have hw := weekdayOfNat_mk d s 6 h
    by_cases hh : GoTime.hour ⟨d, s⟩ < 22
    · have hc : clearDate ⟨d, s⟩ = ⟨d, 0⟩ := by
        simp [clearDate, hw, weekdayOfNat, hh]
      rw [hc]
      exact ⟨rfl, by show d ≤ d; omega, by show d ≤ d + 3; omega,
        by rw [weekdayOfNat_mk d 0 6 h]; decide,
        by rw [weekdayOfNat_mk d 0 6 h]; decide⟩
    · have hc : clearDate ⟨d, s⟩ = ⟨d + 1, 0⟩ := by
        simp [clearDate, hw, weekdayOfNat, hh, GoTime.addDays]
      rw [hc]
      exact ⟨rfl, by show d ≤ d + 1; omega, by show d + 1 ≤ d + 3; omega,
        by rw [weekdayOfNat_mk (d + 1) 0 0 (by omega)]; decide,
        by rw [weekdayOfNat_mk (d + 1) 0 0 (by omega)]; decide⟩

lemma decIntPart_nonneg (q : ℚ) (h : 0 ≤ q) : 0 ≤ decIntPart q := by
  rw [decIntPart, if_pos h]
  exact Int.floor_nonneg.mpr h

/-- C1: the mapped amount is the entry's amount scaled to milliunits and
truncated to an integer, negated exactly when the entry's type is "DB"; in
particular for a non-negative entry amount a credit maps to a non-negative
amount and a debit to a non-positive one. -/
theorem mapped_amount_sign (now : GoTime) (trx : Entry) (aid : String)
    (h : 0 ≤ trx.amount) :
    (toPayloadTransaction now trx aid).amount =
      (if trx.type = "DB" then -decIntPart (trx.amount * 1000)
       else decIntPart (trx.amount * 1000)) ∧
    (trx.type = "DB" → (toPayloadTransaction now trx aid).amount ≤ 0) ∧
    (trx.type = "CR" → 0 ≤ (toPayloadTransaction now trx aid).amount) := by
  have hnn : 0 ≤ decIntPart (trx.amount * 1000) :=
    decIntPart_nonneg _ (by positivity)
  have hamt : (toPayloadTransaction now trx aid).amount =
      (if trx.type = "DB" then -decIntPart (trx.amount * 1000)
       else decIntPart (trx.amount * 1000)) := by
    by_cases hd : trx.date.isNone <;> simp [toPayloadTransaction, hd]
  refine ⟨hamt, ?_, ?_⟩
  · intro ht
    rw [hamt, if_pos ht]
    omega
  · intro ht
    rw [hamt, if_neg (by rw [ht]; decide)]
    exact hnn

/-- C1 witness: a debit entry of amount 7/2 maps to amount -3500, which is
non-positive. -/
theorem mapped_amount_sign_witness :
    (0 : ℚ) ≤ eDB.amount ∧ (toPayloadTransaction nowW eDB "acc").amount ≤ 0 :=
  ⟨by norm_num [eDB], (mapped_amount_sign nowW eDB "acc" (by norm_num [eDB])).2.1 rfl⟩

/-- C4: the import id is a function of the entry's date, amount, type and
payee only — the description has no influence on it. -/
theorem importID_ignores_description (now : GoTime) (e1 e2 : Entry)
    (aid : String) (hd : e1.date = e2.date) (ha : e1.amount = e2.amount)
    (ht : e1.type = e2.type) (hp : e1.payee = e2.payee) :
    (toPayloadTransaction now e1 aid).importID =
      (toPayloadTransaction now e2 aid).importID := by
  simp only [toPayloadTransaction]
  rw [hd, ha, ht, hp]

/-- C4 witness: two entries agreeing on date, amount, type and payee but
with different descriptions receive the same import id. -/
theorem importID_ignores_description_witness :
    eA.description ≠ eB.description ∧
    (toPayloadTransaction nowW eA "acc").importID =
      (toPayloadTransaction nowW eB "acc").importID :=
  ⟨by decide, importID_ignores_description nowW eA eB "acc" rfl rfl rfl rfl⟩

lemma clamp_le (t0 now : GoTime) :
    GoTime.le (if t0.after now then now else t0) now := by
  by_cases hx : t0.after now
  · simp only [hx, if_true]
    exact Or.inr ⟨rfl, le_refl _⟩
  · simp only [hx, if_false, Bool.false_eq_true]
    simp only [GoTime.after, decide_eq_true_eq, not_or, not_and, not_lt] at hx
    rcases lt_or_eq_of_le hx.1 with hlt | heq
    · exact Or.inl hlt
    · exact Or.inr ⟨heq, hx.2 heq⟩

/-- C7: the mapped transaction date is never after the run time: any
resolved date later than `now` is clamped down to `now`. -/
theorem mapped_date_le_now (now : GoTime) (trx : Entry) (aid : String) :
    GoTime.le (toPayloadTransaction now trx aid).date now := by
  by_cases hd : trx.date.isNone
  · have hdate : (toPayloadTransaction now trx aid).date =
        (if (clearDate now).after now then now else clearDate now) := by
      simp [toPayloadTransaction, hd]
    rw [hdate]
    exact clamp_le _ _
  · obtain ⟨d0, hd0⟩ : ∃ d0, trx.date = some d0 := by
      cases hcase : trx.date
      · rw [hcase] at hd
        simp at hd
      · exact ⟨_, rfl⟩
    have hdate : (toPayloadTransaction now trx aid).date =
        (if d0.after now then now else d0) := by
      simp [toPayloadTransaction, hd, hd0]
    rw [hdate]
    exact clamp_le _ _

/-- C5 counterexample: for an entry with an empty description the ynab
mapper's memo is the (empty) description, not the payee — the payee
fallback claimed by the spec does not happen on this path. -/
theorem memo_fallback_cex :
    (toPayloadTransaction nowW eEmptyDesc "acc").memo ≠
      some (if eEmptyDesc.description ≠ "" then eEmptyDesc.description
            else eEmptyDesc.payee) := by
  simp [toPayloadTransaction, eEmptyDesc]

/-- C5 amended: the firefly mapper uses the description when non-empty and
falls back to the payee when it is empty, while the ynab payload mapper
always uses the description verbatim as the memo (no payee fallback). -/
theorem memo_rule (now : GoTime) (trx : Entry) (aid : String) :
    (toFireflyTrx now trx aid).description =
      (if trx.description ≠ "" then trx.description else trx.payee) ∧
    (toPayloadTransaction now trx aid).memo = some trx.description := by
  constructor
  · by_cases h : trx.description = "" <;> simp [toFireflyTrx, h]
  · by_cases hd : trx.date.isNone <;> simp [toPayloadTransaction, hd]

/-- C6 counterexample: for a pending entry observed on a Friday at 22:00 the
substituted clearance date (the following Monday) is in the future, so the
outgoing transaction date is clamped to the run time and is not the
substituted date that fed the import id. -/
theorem pending_date_cex :
    (toPayloadTransaction nowFri ePendCex "a").date ≠ clearDate nowFri := by
  decide

/-- C6 amended: for a pending entry the clearance date computed from the run
time is substituted and fed to the import-id derivation, and it also becomes
the outgoing transaction date except that it is clamped to the run time when
it lies in the future. -/
theorem pending_date_substitution (now : GoTime) (trx : Entry) (aid : String)
    (h : trx.date = none) :
    (toPayloadTransaction now trx aid).importID =
      some (structhashEntry
        { trx with description := "", date := some (clearDate now) }) ∧
    (toPayloadTransaction now trx aid).date =
      (if (clearDate now).after now then now else clearDate now) := by
  simp [toPayloadTransaction, h]

/-- C6 witness: the amended statement at a concrete pending entry. -/
theorem pending_date_substitution_witness :
    (toPayloadTransaction nowW ePendW "acc").importID =
      some (structhashEntry
        { ePendW with description := "", date := some (clearDate nowW) }) ∧
    (toPayloadTransaction nowW ePendW "acc").date =
      (if (clearDate nowW).after nowW then nowW else clearDate nowW) :=
  pending_date_substitution nowW ePendW "acc" rfl

/-- C3: the reconciler posts nothing exactly when the scaled bank balance
equals the target ledger balance; when they differ and the "Inflows"
category is found it posts exactly one transaction whose amount is the
signed delta, reconciled and approved, with the fixed payee label and
without an import id, dated at the run time. -/
theorem reconciler_correct (bb : ℚ) (tb : ℤ) (gs : List CategoryGroup)
    (aid : String) (now : GoTime) :
    (createYNABBalancaAdjustment bb tb gs aid now = .ok none ↔
      decIntPart bb * 1000 = tb) ∧
    (∀ c, findInflows gs = some c → decIntPart bb * 1000 ≠ tb →
      createYNABBalancaAdjustment bb tb gs aid now = .ok (some
        { accountID := aid
          date := now
          amount := decIntPart bb * 1000 - tb
          cleared := .reconciled
          approved := true
          payeeID := none
          payeeName := some "Automated Balance Adjustment"
          categoryID := some c.id
          memo := none
          flagColor := none
          importID := none })) := by
  constructor
  · by_cases h : decIntPart bb * 1000 - tb = 0
    · simp only [createYNABBalancaAdjustment, h, ne_eq, not_true_eq_false,
        if_false]
      constructor
      · intro _
        omega
      · intro _
        trivial
    · simp only [createYNABBalancaAdjustment, ne_eq, h, not_false_eq_true,
        if_true]
      cases hf : findInflows gs <;> simp <;> omega
  · intro c hc hne
    have h : decIntPart bb * 1000 - tb ≠ 0 := by omega
    simp [createYNABBalancaAdjustment, h, hc]

/-- C3 witness: bank balance 5 against a target balance of 2000 milliunits
creates one reconciliation transaction of amount 3000 with the stated
attributes. -/
theorem reconciler_correct_witness :
    findInflows gsW = some ⟨"cat1", "Inflows"⟩ ∧
    createYNABBalancaAdjustment 5 2000 gsW "acc" ⟨0, 0⟩ = .ok (some
      { accountID := "acc"
        date := ⟨0, 0⟩
        amount := decIntPart 5 * 1000 - 2000
        cleared := .reconciled
        approved := true
        payeeID := none
        payeeName := some "Automated Balance Adjustment"
        categoryID := some "cat1"
        memo := none
        flagColor := none
        importID := none }) :=
  ⟨rfl, (reconciler_correct 5 2000 gsW "acc" ⟨0, 0⟩).2 ⟨"cat1", "Inflows"⟩ rfl
    (by decide)⟩

/-- C8 counterexample: with zero fetched entries the run's outcome is an
error value (propagated to a fatal exit by the caller), not the normal
non-error outcome the claim describes. -/
theorem empty_fetch_cex :
    exceptIsOk (runSync 27 ⟨0, 0⟩ [] "acc").2 = false := by
  decide

/-- C8 amended: with zero fetched entries the run ends early with an error
carrying the no-transactions message, and the batch submit is never
reached. -/
theorem empty_fetch_no_submit (d : ℤ) (now : GoTime) (aid : String) :
    runSync d now [] aid = (false, .error (noTrxMessage d now)) := by
  rfl

/-- C10: the statement-fetch window start is never more than 27 days before
the window end and never after it; a configured value above 27 is clamped
to 27 and a negative one to 0. -/
theorem fetch_window_clamped (d : ℤ) (now : GoTime) :
    now.day - 27 ≤ (fetchWindowStart d now).day ∧
    (fetchWindowStart d now).day ≤ now.day ∧
    (27 < d → fetchWindowStart d now = now.addDays (-27)) ∧
    (d < 0 → fetchWindowStart d now = now) := by
  obtain ⟨nd, ns⟩ := now
  refine ⟨?_, ?_, fun h27 => ?_, fun hneg => ?_⟩ <;>
    simp only [fetchWindowStart, clampDays, GoTime.addDays] <;>
    split_ifs <;>
    simp [GoTime.mk.injEq] <;>
    omega

/-- C10 witness: 30 days is clamped to 27 and -4 days to 0. -/
theorem fetch_window_clamped_witness :
    fetchWindowStart 30 ⟨100, 5⟩ = GoTime.addDays ⟨100, 5⟩ (-27) ∧
    fetchWindowStart (-4) ⟨100, 5⟩ = ⟨100, 5⟩ :=
  ⟨(fetch_window_clamped 30 ⟨100, 5⟩).2.2.1 (by decide),
   (fetch_window_clamped (-4) ⟨100, 5⟩).2.2.2 (by decide)⟩
